import Mathlib

set_option maxHeartbeats 1000000

/-!
Shallow embedding of the migration core of ga-extractor
(`src/ga_extractor/extractor.py`): the daily report aggregator
(`_migrate_date_ranges`, `__migrate_extract`) and the session/page-view
synthesizer (`__migrate_transform`), together with the properties of the
specification that concern them.
-/

/-- The seven dimension values of one report row, in the order requested by
`__migrate_extract` (line 227): index 0 is `ga:pagePath`, 1 `ga:browser`,
2 `ga:operatingSystem`, 3 `ga:deviceCategory`, 4 `ga:browserSize`,
5 `ga:language`, 6 `ga:country`.  The Python code reads them positionally
from the row's `"dimensions"` list. -/
structure Dimensions where
  urlPath : String
  browser : String
  os : String
  device : String
  screen : String
  language : String
  country : String
  deriving DecidableEq, Repr

/-- One dimension row as consumed by `__migrate_transform` (shape documented in
the source comment at line 291:
`{dimensions: [...], metrics: [{values: [pageViews, sessions]}]}`).
The reporting API delivers the two metric values as decimal strings; the model
carries their numeric value. -/
structure Row where
  dimensions : Dimensions
  pageViews : Nat
  sessions : Nat
  deriving DecidableEq, Repr

/-- The `Session` NamedTuple (extractor.py lines 248-259).  The `session_uuid`
field (a fresh random v4 UUID per session, line 311) is the one
non-deterministic field of the source record and is not part of the
deterministic model. -/
structure Session where
  session_id : Nat
  website_id : Nat
  created_at : String
  hostname : String
  browser : String
  os : String
  device : String
  screen : String
  language : String
  country : String
  deriving DecidableEq, Repr

/-- The `PageView` NamedTuple (extractor.py lines 269-274); its rendering adds a
literal `NULL` referrer. -/
structure PageView where
  id : Nat
  website_id : Nat
  session_id : Nat
  created_at : String
  url : String
  deriving DecidableEq, Repr

/-- One element of the `sql_inserts` list built by `__migrate_transform`:
a `Session`, a `PageView`, or a raw SQL string (the trailing sequence-reset
entry appended at lines 345-348). -/
inductive Record where
  | session : Session → Record
  | pageView : PageView → Record
  | rawSql : String → Record
  deriving DecidableEq, Repr

/-- `website_id = 1`, hardcoded at extractor.py line 299 (marked
`TODO Parametrize`). -/
def website_id : Nat := 1

/-- `hostname = "localhost"`, hardcoded at extractor.py line 300. -/
def hostname : String := "localhost"

/-- The timestamp attached to every record of a day
(line 306: `f"{day} 00:00:00.000+00"`). -/
def dayTimestamp (day : String) : String := day ++ " 00:00:00.000+00"

/-- Builds the `Session` record of lines 311-313 (same constructor call at
lines 321-323 and 332-334). -/
def mkSession (sid : Nat) (ts : String) (dims : Dimensions) : Session :=
  { session_id := sid, website_id := website_id, created_at := ts,
    hostname := hostname, browser := dims.browser, os := dims.os,
    device := dims.device, screen := dims.screen, language := dims.language,
    country := dims.country }

/-- Builds the `PageView` record of line 314 (same constructor call at
lines 326, 335 and 341). -/
def mkPageView (pvId sid : Nat) (ts url : String) : PageView :=
  { id := pvId, website_id := website_id, session_id := sid, created_at := ts,
    url := url }

/-- Loop of the first branch (lines 310-317): `for i in range(n)` emits a
session immediately followed by one page view for it, each counter stepping by
one per iteration.  State is threaded as `(records, pageViewId, sessionId)`.
The third branch's first loop (lines 331-338) has the identical body. -/
def uniformOneLoop (ts : String) (dims : Dimensions) :
    Nat → Nat → Nat → List Record × Nat × Nat
  | 0, pvId, sid => ([], pvId, sid)
  | n + 1, pvId, sid =>
    let rest := uniformOneLoop ts dims n (pvId + 1) (sid + 1)
    (Record.session (mkSession sid ts dims) ::
       Record.pageView (mkPageView pvId sid ts dims.urlPath) :: rest.1,
     rest.2)

/-- Inner loop of the second branch (lines 325-328): `for j in range(k)` page
views for the fixed session `sid`; returns the emitted views and the next page
view id. -/
def evenSplitInner (ts url : String) (sid : Nat) :
    Nat → Nat → List Record × Nat
  | 0, pvId => ([], pvId)
  | k + 1, pvId =>
    let rest := evenSplitInner ts url sid k (pvId + 1)
    (Record.pageView (mkPageView pvId sid ts url) :: rest.1, rest.2)

/-- Outer loop of the second branch (lines 320-329): each iteration emits one
session and then `k = page_views // sessions` page views for it (the source
recomputes the constant quotient inside the loop). -/
def evenSplitLoop (ts : String) (dims : Dimensions) (k : Nat) :
    Nat → Nat → Nat → List Record × Nat × Nat
  | 0, pvId, sid => ([], pvId, sid)
  | n + 1, pvId, sid =>
    let inner := evenSplitInner ts dims.urlPath sid k pvId
    let rest := evenSplitLoop ts dims k n inner.2 (sid + 1)
    (Record.session (mkSession sid ts dims) :: (inner.1 ++ rest.1), rest.2)

/-- Final loop of the third branch (lines 340-343): `page_views - sessions`
extra page views, all attributed to `last_session_id`. -/
def remainderLoop (ts url : String) (lastSid : Nat) :
    Nat → Nat → List Record × Nat
  | 0, pvId => ([], pvId)
  | n + 1, pvId =>
    let rest := remainderLoop ts url lastSid n (pvId + 1)
    (Record.pageView (mkPageView pvId lastSid ts url) :: rest.1, rest.2)

/-- One iteration of the per-day loop of `__migrate_transform`
(lines 305-343).  Faithful to the source: the metric pair is read from the
FIRST element of the day's row list (`row[0]["metrics"][0]["values"]`,
line 307) — the remaining rows of the day are never consulted — and an empty
row list makes that subscript fail (`none`, an `IndexError` in the source).
The dimension lookups (lines 312-314, 322-323, 333-334) are written
`row["dimensions"][i]`, a string subscript on that same list and so ill-typed
in the source; the model reads the dimension values of the same first row that
supplied the metrics.  `sessions` is coerced with `max(sessions, 1)`
(line 308) and the coerced value is used everywhere below.  Python's
`range` of a negative count is empty, which truncated `Nat` subtraction in the
`remainderLoop` count mirrors. -/
def transformDay (day : String) (dayRows : List Row) (pvId sid : Nat) :
    Option (List Record × Nat × Nat) :=
  match dayRows with
  | [] => none
  | row :: _ =>
    let ts := dayTimestamp day
    let page_views := row.pageViews
    let sessions := max row.sessions 1
    some (if page_views / sessions = 1 then
            uniformOneLoop ts row.dimensions sessions pvId sid
          else if page_views % sessions = 0 then
            evenSplitLoop ts row.dimensions (page_views / sessions) sessions
              pvId sid
          else
            let first := uniformOneLoop ts row.dimensions sessions pvId sid
            let last_session_id := first.2.2 - 1
            let extra := remainderLoop ts row.dimensions.urlPath
              last_session_id (page_views - sessions) first.2.1
            (first.1 ++ extra.1, extra.2, first.2.2))

/-- The full per-day loop (`for day, row in rows.items()`, line 305), threading
the two global counters through the mapping in insertion order (Python dicts
iterate in insertion order). -/
def transformDays : List (String × List Row) → Nat → Nat →
    Option (List Record × Nat × Nat)
  | [], pvId, sid => some ([], pvId, sid)
  | (day, dayRows) :: rest, pvId, sid =>
    match transformDay day dayRows pvId sid with
    | none => none
    | some (recs, pvId2, sid2) =>
      match transformDays rest pvId2 sid2 with
      | none => none
      | some (recs2, pvId3, sid3) => some (recs ++ recs2, pvId3, sid3)

/-- The single string appended at lines 345-348.  The source writes two
f-strings inside `extend([...])` with no comma between them, so Python's
implicit literal concatenation turns them into ONE list element containing
both `setval` statements. -/
def resetEntry (pvId sid : Nat) : String :=
  "SELECT pg_catalog.setval(\x27public.pageview_view_id_seq\x27, "
    ++ toString pvId ++ ", true);"
    ++ "SELECT pg_catalog.setval(\x27public.session_session_id_seq\x27, "
    ++ toString sid ++ ", true);"

/-- `__migrate_transform` (lines 280-349): both counters start at 1
(lines 302-303); after the day loop the sequence-reset entry is appended. -/
def migrate_transform (rows : List (String × List Row)) : Option (List Record) :=
  match transformDays rows 1 1 with
  | none => none
  | some (recs, pvId, sid) => some (recs ++ [Record.rawSql (resetEntry pvId sid)])

/-- A GA date range.  Calendar dates are modelled by their ordinal day number
(an `Int`); `date + timedelta(days=d)` is integer addition and
`(end_date - start_date).days` is integer subtraction. -/
structure DateRange where
  startDate : Int
  endDate : Int
  deriving DecidableEq, Repr

/-- `_migrate_date_ranges` (lines 217-223): one single-day range per
`d in range((end_date - start_date).days + 1)`.  Python's `range` of a
non-positive count is empty, which `Int.toNat`'s truncation mirrors. -/
def migrate_date_ranges (start_date end_date : Int) : List DateRange :=
  (List.range ((end_date - start_date + 1).toNat)).map
    (fun (d : Nat) =>
      { startDate := start_date + (d : Int),
        endDate := start_date + (d : Int) })

/-- `__migrate_extract` (lines 226-245) with the API client abstracted into
`fetch`: one `batchGet` per date range, its row list keyed by the range's
`startDate`, in insertion order. -/
def migrate_extract (fetch : DateRange → List Row)
    (date_ranges : List DateRange) : List (Int × List Row) :=
  date_ranges.map (fun r => (r.startDate, fetch r))

/-- Session ids of the session records of a list, in emission order. -/
def sessionIds (l : List Record) : List Nat :=
  l.filterMap (fun r => match r with
    | .session s => some s.session_id
    | _ => none)

/-- View ids of the page-view records of a list, in emission order. -/
def viewIds (l : List Record) : List Nat :=
  l.filterMap (fun r => match r with
    | .pageView p => some p.id
    | _ => none)

/-- Number of session records in a list. -/
def countSessions (l : List Record) : Nat := (sessionIds l).length

/-- Number of page-view records in a list. -/
def countPageViews (l : List Record) : Nat := (viewIds l).length

/-- Number of page views attributed to session id `n`. -/
def viewsForSession (n : Nat) (l : List Record) : Nat :=
  (l.filter (fun r => match r with
    | .pageView p => p.session_id == n
    | _ => false)).length

/-- Recognizes the sequence-reset entry. -/
def isReset (r : Record) : Bool :=
  match r with
  | .rawSql _ => true
  | _ => false

/-- Left-to-right scan: `true` iff every page view references a session id
already seen, i.e. a session emitted at a strictly earlier position. -/
def noForwardRefAux : List Nat → List Record → Bool
  | _, [] => true
  | seen, .session s :: rest => noForwardRefAux (s.session_id :: seen) rest
  | seen, .pageView p :: rest =>
    seen.contains p.session_id && noForwardRefAux seen rest
  | seen, .rawSql _ :: rest => noForwardRefAux seen rest

/-- `true` iff no page view of the list references a session that is not
emitted at an earlier position of the same list. -/
def noForwardRef (l : List Record) : Bool := noForwardRefAux [] l

/-- Session ids accumulated by a left-to-right scan, newest first. -/
def seenAfter (seen : List Nat) : List Record → List Nat
  | [] => seen
  | .session s :: rest => seenAfter (s.session_id :: seen) rest
  | _ :: rest => seenAfter seen rest

/-- `true` iff the record carries the hardcoded `website_id` (and, for a
session, the hardcoded `hostname`). -/
def recordConstantsOk (r : Record) : Bool :=
  match r with
  | .session s => s.website_id == website_id && s.hostname == hostname
  | .pageView p => p.website_id == website_id
  | .rawSql _ => true

/-- Follows the spec's words for the uniform-one policy: `n` sessions with
consecutive ids from `sid`, the `i`-th immediately followed by exactly one page
view (view ids consecutive from `pvId`). -/
def specUniformOneShape (ts : String) (dims : Dimensions) (n pvId sid : Nat) :
    List Record :=
  ((List.range n).map fun i =>
    [Record.session (mkSession (sid + i) ts dims),
     Record.pageView (mkPageView (pvId + i) (sid + i) ts dims.urlPath)]).flatten

/-- Follows the spec's words for the even-split policy: `n` sessions with
consecutive ids from `sid`, the `i`-th immediately followed by exactly `k`
page views attributed to it, view ids consecutive from `pvId` across the
groups. -/
def specEvenSplitShape (ts : String) (dims : Dimensions) (k n pvId sid : Nat) :
    List Record :=
  ((List.range n).map fun i =>
    Record.session (mkSession (sid + i) ts dims) ::
      ((List.range k).map fun j =>
        Record.pageView (mkPageView (pvId + i * k + j) (sid + i) ts
          dims.urlPath))).flatten

/-- A concrete dimension tuple used by the concrete evaluations below. -/
def sampleDims : Dimensions :=
  { urlPath := "/blog/29", browser := "Opera", os := "Windows",
    device := "desktop", screen := "2520x1320", language := "de-de",
    country := "Germany" }

/-- Record-field projections of the two constructors, used throughout the
proofs. -/
@[simp] theorem mkSession_session_id (sid : Nat) (ts : String) (dims : Dimensions) :
    (mkSession sid ts dims).session_id = sid := rfl

@[simp] theorem mkSession_website_id (sid : Nat) (ts : String) (dims : Dimensions) :
    (mkSession sid ts dims).website_id = website_id := rfl

@[simp] theorem mkSession_hostname (sid : Nat) (ts : String) (dims : Dimensions) :
    (mkSession sid ts dims).hostname = hostname := rfl

@[simp] theorem mkPageView_id (pvId sid : Nat) (ts url : String) :
    (mkPageView pvId sid ts url).id = pvId := rfl

@[simp] theorem mkPageView_session_id (pvId sid : Nat) (ts url : String) :
    (mkPageView pvId sid ts url).session_id = sid := rfl

@[simp] theorem mkPageView_website_id (pvId sid : Nat) (ts url : String) :
    (mkPageView pvId sid ts url).website_id = website_id := rfl

@[simp] theorem sessionIds_nil : sessionIds [] = [] := rfl

@[simp] theorem sessionIds_cons_session (s : Session) (l : List Record) :
    sessionIds (Record.session s :: l) = s.session_id :: sessionIds l := by
  simp [sessionIds]

@[simp] theorem sessionIds_cons_pageView (p : PageView) (l : List Record) :
    sessionIds (Record.pageView p :: l) = sessionIds l := by
  simp [sessionIds]

@[simp] theorem sessionIds_cons_rawSql (s : String) (l : List Record) :
    sessionIds (Record.rawSql s :: l) = sessionIds l := by
  simp [sessionIds]

@[simp] theorem sessionIds_append (a b : List Record) :
    sessionIds (a ++ b) = sessionIds a ++ sessionIds b := by
  simp [sessionIds]

@[simp] theorem viewIds_nil : viewIds [] = [] := rfl

@[simp] theorem viewIds_cons_session (s : Session) (l : List Record) :
    viewIds (Record.session s :: l) = viewIds l := by
  simp [viewIds]

@[simp] theorem viewIds_cons_pageView (p : PageView) (l : List Record) :
    viewIds (Record.pageView p :: l) = p.id :: viewIds l := by
  simp [viewIds]

@[simp] theorem viewIds_cons_rawSql (s : String) (l : List Record) :
    viewIds (Record.rawSql s :: l) = viewIds l := by
  simp [viewIds]

@[simp] theorem viewIds_append (a b : List Record) :
    viewIds (a ++ b) = viewIds a ++ viewIds b := by
  simp [viewIds]

/-- Counter state after the uniform-one loop: both counters advance by the
iteration count. -/
theorem uniformOneLoop_snd (ts : String) (dims : Dimensions) :
    ∀ n pvId sid, (uniformOneLoop ts dims n pvId sid).2 = (pvId + n, sid + n)
  | 0, pvId, sid => by simp [uniformOneLoop]
  | n + 1, pvId, sid => by
    simp [uniformOneLoop, uniformOneLoop_snd ts dims n (pvId + 1) (sid + 1),
      Prod.ext_iff]
    omega

/-- Session ids emitted by the uniform-one loop: consecutive from `sid`. -/
theorem sessionIds_uniformOneLoop (ts : String) (dims : Dimensions) :
    ∀ n pvId sid,
      sessionIds (uniformOneLoop ts dims n pvId sid).1 = List.range' sid n
  | 0, _, _ => rfl
  | n + 1, pvId, sid => by
    simp [uniformOneLoop, List.range'_succ,
      sessionIds_uniformOneLoop ts dims n (pvId + 1) (sid + 1)]

/-- View ids emitted by the uniform-one loop: consecutive from `pvId`. -/
theorem viewIds_uniformOneLoop (ts : String) (dims : Dimensions) :
    ∀ n pvId sid,
      viewIds (uniformOneLoop ts dims n pvId sid).1 = List.range' pvId n
  | 0, _, _ => rfl
  | n + 1, pvId, sid => by
    simp [uniformOneLoop, List.range'_succ,
      viewIds_uniformOneLoop ts dims n (pvId + 1) (sid + 1)]

/-- Counter state after the even-split inner loop. -/
theorem evenSplitInner_snd (ts url : String) (sid : Nat) :
    ∀ k pvId, (evenSplitInner ts url sid k pvId).2 = pvId + k
  | 0, pvId => by simp [evenSplitInner]
  | k + 1, pvId => by
    simp [evenSplitInner, evenSplitInner_snd ts url sid k (pvId + 1)]
    omega

@[simp] theorem sessionIds_evenSplitInner (ts url : String) (sid : Nat) :
    ∀ k pvId, sessionIds (evenSplitInner ts url sid k pvId).1 = []
  | 0, _ => rfl
  | k + 1, pvId => by
    simp [evenSplitInner, sessionIds_evenSplitInner ts url sid k (pvId + 1)]

theorem viewIds_evenSplitInner (ts url : String) (sid : Nat) :
    ∀ k pvId, viewIds (evenSplitInner ts url sid k pvId).1 = List.range' pvId k
  | 0, _ => rfl
  | k + 1, pvId => by
    simp [evenSplitInner, List.range'_succ,
      viewIds_evenSplitInner ts url sid k (pvId + 1)]

/-- Counter state after the even-split outer loop. -/
theorem evenSplitLoop_snd (ts : String) (dims : Dimensions) (k : Nat) :
    ∀ n pvId sid,
      (evenSplitLoop ts dims k n pvId sid).2 = (pvId + n * k, sid + n)
  | 0, pvId, sid => by simp [evenSplitLoop]
  | n + 1, pvId, sid => by
    simp [evenSplitLoop, evenSplitInner_snd,
      evenSplitLoop_snd ts dims k n (pvId + k) (sid + 1), Prod.ext_iff]
    constructor
    · rw [Nat.succ_mul]; omega
    · omega

/-- Session ids emitted by the even-split loop: consecutive from `sid`. -/
theorem sessionIds_evenSplitLoop (ts : String) (dims : Dimensions) (k : Nat) :
    ∀ n pvId sid,
      sessionIds (evenSplitLoop ts dims k n pvId sid).1 = List.range' sid n
  | 0, _, _ => rfl
  | n + 1, pvId, sid => by
    simp [evenSplitLoop, List.range'_succ, evenSplitInner_snd,
      sessionIds_evenSplitLoop ts dims k n (pvId + k) (sid + 1)]

/-- View ids emitted by the even-split loop: consecutive from `pvId`,
`k` per session. -/
theorem viewIds_evenSplitLoop (ts : String) (dims : Dimensions) (k : Nat) :
    ∀ n pvId sid,
      viewIds (evenSplitLoop ts dims k n pvId sid).1 =
        List.range' pvId (n * k)
  | 0, _, _ => by simp [evenSplitLoop]
  | n + 1, pvId, sid => by
    have h := viewIds_evenSplitLoop ts dims k n (pvId + k) (sid + 1)
    simp [evenSplitLoop, evenSplitInner_snd, viewIds_evenSplitInner, h]
    rw [Nat.succ_mul]

/-- Counter state after the remainder loop. -/
theorem remainderLoop_snd (ts url : String) (lastSid : Nat) :
    ∀ n pvId, (remainderLoop ts url lastSid n pvId).2 = pvId + n
  | 0, pvId => by simp [remainderLoop]
  | n + 1, pvId => by
    simp [remainderLoop, remainderLoop_snd ts url lastSid n (pvId + 1)]
    omega

@[simp] theorem sessionIds_remainderLoop (ts url : String) (lastSid : Nat) :
    ∀ n pvId, sessionIds (remainderLoop ts url lastSid n pvId).1 = []
  | 0, _ => rfl
  | n + 1, pvId => by
    simp [remainderLoop, sessionIds_remainderLoop ts url lastSid n (pvId + 1)]

theorem viewIds_remainderLoop (ts url : String) (lastSid : Nat) :
    ∀ n pvId,
      viewIds (remainderLoop ts url lastSid n pvId).1 = List.range' pvId n
  | 0, _ => rfl
  | n + 1, pvId => by
    simp [remainderLoop, List.range'_succ,
      viewIds_remainderLoop ts url lastSid n (pvId + 1)]

/-- First branch of the policy selection (line 309): when
`page_views // sessions == 1` the uniform-one loop runs. -/
theorem transformDay_cons_uniform (day : String) (row : Row) (rest : List Row)
    (pvId sid : Nat) (h : row.pageViews / max row.sessions 1 = 1) :
    transformDay day (row :: rest) pvId sid =
      some (uniformOneLoop (dayTimestamp day) row.dimensions
        (max row.sessions 1) pvId sid) := by
  simp [transformDay, h]

/-- Second branch of the policy selection (line 319): even split. -/
theorem transformDay_cons_even (day : String) (row : Row) (rest : List Row)
    (pvId sid : Nat) (h1 : ¬ row.pageViews / max row.sessions 1 = 1)
    (h2 : row.pageViews % max row.sessions 1 = 0) :
    transformDay day (row :: rest) pvId sid =
      some (evenSplitLoop (dayTimestamp day) row.dimensions
        (row.pageViews / max row.sessions 1) (max row.sessions 1) pvId sid) := by
  simp [transformDay, h1, h2]

/-- Third branch of the policy selection (line 330): remainder-to-last.
`last_session_id` (line 339) is the final counter value minus one, i.e.
`sid + sessions - 1`. -/
theorem transformDay_cons_rem (day : String) (row : Row) (rest : List Row)
    (pvId sid : Nat) (h1 : ¬ row.pageViews / max row.sessions 1 = 1)
    (h2 : ¬ row.pageViews % max row.sessions 1 = 0) :
    transformDay day (row :: rest) pvId sid =
      some ((uniformOneLoop (dayTimestamp day) row.dimensions
               (max row.sessions 1) pvId sid).1 ++
              (remainderLoop (dayTimestamp day) row.dimensions.urlPath
                (sid + max row.sessions 1 - 1)
                (row.pageViews - max row.sessions 1)
                (pvId + max row.sessions 1)).1,
            pvId + max row.sessions 1 + (row.pageViews - max row.sessions 1),
            sid + max row.sessions 1) := by
  simp [transformDay, h1, h2, uniformOneLoop_snd, remainderLoop_snd]

/-- Whenever one day succeeds, the session ids it emits are consecutive from
the incoming session counter and the view ids are consecutive from the
incoming view counter, and the returned counters are advanced by exactly the
emitted amounts. -/
theorem transformDay_some_ids (day : String) (dayRows : List Row)
    (pvId sid : Nat) (x : List Record × Nat × Nat)
    (h : transformDay day dayRows pvId sid = some x) :
    ∃ a b, sessionIds x.1 = List.range' sid a ∧ x.2.2 = sid + a ∧
      viewIds x.1 = List.range' pvId b ∧ x.2.1 = pvId + b := by
  match dayRows with
  | [] => simp [transformDay] at h
  | row :: rest =>
    by_cases h1 : row.pageViews / max row.sessions 1 = 1
    · rw [transformDay_cons_uniform day row rest pvId sid h1] at h
      have hx := Option.some.inj h
      refine ⟨max row.sessions 1, max row.sessions 1, ?_, ?_, ?_, ?_⟩ <;>
        rw [← hx] <;>
        simp [sessionIds_uniformOneLoop, viewIds_uniformOneLoop,
          uniformOneLoop_snd]
    · by_cases h2 : row.pageViews % max row.sessions 1 = 0
      · rw [transformDay_cons_even day row rest pvId sid h1 h2] at h
        have hx := Option.some.inj h
        refine ⟨max row.sessions 1,
          (max row.sessions 1) * (row.pageViews / max row.sessions 1),
          ?_, ?_, ?_, ?_⟩ <;>
          rw [← hx] <;>
          simp [sessionIds_evenSplitLoop, viewIds_evenSplitLoop,
            evenSplitLoop_snd]
      · rw [transformDay_cons_rem day row rest pvId sid h1 h2] at h
        have hx := Option.some.inj h
        refine ⟨max row.sessions 1,
          (row.pageViews - max row.sessions 1) + max row.sessions 1,
          ?_, ?_, ?_, ?_⟩ <;> rw [← hx]
        · simp [sessionIds_uniformOneLoop]
        · rw [viewIds_append, viewIds_uniformOneLoop, viewIds_remainderLoop,
            List.range'_append_1]
        · simp
          omega

/-- `transformDay_some_ids` lifted over the whole day loop. -/
theorem transformDays_ids (rows : List (String × List Row)) :
    ∀ pvId sid x, transformDays rows pvId sid = some x →
      ∃ a b, sessionIds x.1 = List.range' sid a ∧ x.2.2 = sid + a ∧
        viewIds x.1 = List.range' pvId b ∧ x.2.1 = pvId + b := by
  induction rows with
  | nil =>
    intro pvId sid x h
    have hx := Option.some.inj h
    refine ⟨0, 0, ?_, ?_, ?_, ?_⟩ <;> rw [← hx] <;> simp
  | cons hd tl ih =>
    intro pvId sid x h
    obtain ⟨day, dayRows⟩ := hd
    cases hdm : transformDay day dayRows pvId sid with
    | none => simp [transformDays, hdm] at h
    | some y =>
      obtain ⟨recs, pvId2, sid2⟩ := y
      cases ht : transformDays tl pvId2 sid2 with
      | none => simp [transformDays, hdm, ht] at h
      | some z =>
        obtain ⟨recs2, pvId3, sid3⟩ := z
        simp only [transformDays, hdm, ht] at h
        have hx := Option.some.inj h
        obtain ⟨a1, b1, e1, e2, e3, e4⟩ :=
          transformDay_some_ids day dayRows pvId sid _ hdm
        obtain ⟨a2, b2, f1, f2, f3, f4⟩ := ih pvId2 sid2 _ ht
        simp only at e1 e2 e3 e4 f1 f2 f3 f4
        refine ⟨a2 + a1, b2 + b1, ?_, ?_, ?_, ?_⟩ <;> rw [← hx]
        · simp only [sessionIds_append, e1, f1, e2]
          exact List.range'_append_1 sid a1 a2
        · simp only [f2, e2]; omega
        · simp only [viewIds_append, e3, f3, e4]
          exact List.range'_append_1 pvId b1 b2
        · simp only [f4, e4]; omega

theorem contains_of_mem {a : Nat} {l : List Nat} (h : a ∈ l) :
    l.contains a = true := by
  simpa [List.contains] using h

/-- The forward-reference scan distributes over append, threading the session
ids seen in the first part. -/
theorem noForwardRefAux_append (a : List Record) :
    ∀ (b : List Record) (seen : List Nat),
      noForwardRefAux seen (a ++ b) =
        (noForwardRefAux seen a && noForwardRefAux (seenAfter seen a) b) := by
  induction a with
  | nil => intro b seen; simp [noForwardRefAux, seenAfter]
  | cons r a ih =>
    intro b seen
    cases r with
    | session s => simp [noForwardRefAux, seenAfter, ih]
    | pageView p => simp [noForwardRefAux, seenAfter, ih, Bool.and_assoc]
    | rawSql s => simp [noForwardRefAux, seenAfter, ih]

theorem seenAfter_uniformOneLoop (ts : String) (dims : Dimensions) :
    ∀ n pvId sid seen,
      seenAfter seen (uniformOneLoop ts dims n pvId sid).1 =
        (List.range' sid n).reverse ++ seen
  | 0, pvId, sid, seen => by simp [uniformOneLoop, seenAfter]
  | n + 1, pvId, sid, seen => by
    simp [uniformOneLoop, seenAfter, List.range'_succ,
      seenAfter_uniformOneLoop ts dims n (pvId + 1) (sid + 1) (sid :: seen)]

theorem noForwardRefAux_uniformOneLoop (ts : String) (dims : Dimensions) :
    ∀ n pvId sid seen,
      noForwardRefAux seen (uniformOneLoop ts dims n pvId sid).1 = true
  | 0, pvId, sid, seen => by simp [uniformOneLoop, noForwardRefAux]
  | n + 1, pvId, sid, seen => by
    simp [uniformOneLoop, noForwardRefAux,
      noForwardRefAux_uniformOneLoop ts dims n (pvId + 1) (sid + 1)
        (sid :: seen)]

theorem seenAfter_evenSplitInner (ts url : String) (sid : Nat) :
    ∀ k pvId seen, seenAfter seen (evenSplitInner ts url sid k pvId).1 = seen
  | 0, pvId, seen => by simp [evenSplitInner, seenAfter]
  | k + 1, pvId, seen => by
    simp [evenSplitInner, seenAfter,
      seenAfter_evenSplitInner ts url sid k (pvId + 1) seen]

theorem noForwardRefAux_evenSplitInner (ts url : String) (sid : Nat) :
    ∀ k pvId seen, seen.contains sid = true →
      noForwardRefAux seen (evenSplitInner ts url sid k pvId).1 = true
  | 0, pvId, seen, _ => by simp [evenSplitInner, noForwardRefAux]
  | k + 1, pvId, seen, h => by
    have hm : sid ∈ seen := by simpa [List.contains] using h
    simp [evenSplitInner, noForwardRefAux, hm,
      noForwardRefAux_evenSplitInner ts url sid k (pvId + 1) seen h]

theorem noForwardRefAux_evenSplitLoop (ts : String) (dims : Dimensions)
    (k : Nat) :
    ∀ n pvId sid seen,
      noForwardRefAux seen (evenSplitLoop ts dims k n pvId sid).1 = true
  | 0, pvId, sid, seen => by simp [evenSplitLoop, noForwardRefAux]
  | n + 1, pvId, sid, seen => by
    have hin : noForwardRefAux (sid :: seen)
        (evenSplitInner ts dims.urlPath sid k pvId).1 = true :=
      noForwardRefAux_evenSplitInner ts dims.urlPath sid k pvId (sid :: seen)
        (by simp)
    have hrest := noForwardRefAux_evenSplitLoop ts dims k n
      (evenSplitInner ts dims.urlPath sid k pvId).2 (sid + 1) (sid :: seen)
    simp [evenSplitLoop, noForwardRefAux, noForwardRefAux_append, hin,
      seenAfter_evenSplitInner, hrest]

theorem noForwardRefAux_remainderLoop (ts url : String) (lastSid : Nat) :
    ∀ n pvId seen, seen.contains lastSid = true →
      noForwardRefAux seen (remainderLoop ts url lastSid n pvId).1 = true
  | 0, pvId, seen, _ => by simp [remainderLoop, noForwardRefAux]
  | n + 1, pvId, seen, h => by
    have hm : lastSid ∈ seen := by simpa [List.contains] using h
    simp [remainderLoop, noForwardRefAux, hm,
      noForwardRefAux_remainderLoop ts url lastSid n (pvId + 1) seen h]

/-- Every day's emitted records are free of forward references, whatever
session ids have been seen before the day. -/
theorem noForwardRefAux_transformDay (day : String) (dayRows : List Row)
    (pvId sid : Nat) (x : List Record × Nat × Nat) (seen : List Nat)
    (h : transformDay day dayRows pvId sid = some x) :
    noForwardRefAux seen x.1 = true := by
  match dayRows with
  | [] => simp [transformDay] at h
  | row :: rest =>
    by_cases h1 : row.pageViews / max row.sessions 1 = 1
    · rw [transformDay_cons_uniform day row rest pvId sid h1] at h
      rw [← Option.some.inj h]
      exact noForwardRefAux_uniformOneLoop _ _ _ _ _ _
    · by_cases h2 : row.pageViews % max row.sessions 1 = 0
      · rw [transformDay_cons_even day row rest pvId sid h1 h2] at h
        rw [← Option.some.inj h]
        exact noForwardRefAux_evenSplitLoop _ _ _ _ _ _ _
      · rw [transformDay_cons_rem day row rest pvId sid h1 h2] at h
        rw [← Option.some.inj h]
        simp only [noForwardRefAux_append, seenAfter_uniformOneLoop]
        have hmem : sid + max row.sessions 1 - 1 ∈
            List.range' sid (max row.sessions 1) := by
          rw [List.mem_range']
          exact ⟨max row.sessions 1 - 1, by omega, by omega⟩
        have hc : ((List.range' sid (max row.sessions 1)).reverse
            ++ seen).contains (sid + max row.sessions 1 - 1) = true :=
          contains_of_mem (by simp [hmem])
        simp [noForwardRefAux_uniformOneLoop,
          noForwardRefAux_remainderLoop _ _ _ _ _ _ hc]

/-- No forward reference across the whole day loop. -/
theorem noForwardRefAux_transformDays (rows : List (String × List Row)) :
    ∀ pvId sid x seen, transformDays rows pvId sid = some x →
      noForwardRefAux seen x.1 = true := by
  induction rows with
  | nil =>
    intro pvId sid x seen h
    rw [← Option.some.inj h]
    simp [noForwardRefAux]
  | cons hd tl ih =>
    intro pvId sid x seen h
    obtain ⟨day, dayRows⟩ := hd
    cases hdm : transformDay day dayRows pvId sid with
    | none => simp [transformDays, hdm] at h
    | some y =>
      obtain ⟨recs, pvId2, sid2⟩ := y
      cases ht : transformDays tl pvId2 sid2 with
      | none => simp [transformDays, hdm, ht] at h
      | some z =>
        obtain ⟨recs2, pvId3, sid3⟩ := z
        simp only [transformDays, hdm, ht] at h
        rw [← Option.some.inj h]
        simp only [noForwardRefAux_append]
        have h1 := noForwardRefAux_transformDay day dayRows pvId sid _ seen hdm
        have h2 := ih pvId2 sid2 (recs2, pvId3, sid3)
          (seenAfter seen recs) ht
        simp only at h1 h2
        simp [h1, h2]

@[simp] theorem recordConstantsOk_mkSession (sid : Nat) (ts : String)
    (dims : Dimensions) :
    recordConstantsOk (Record.session (mkSession sid ts dims)) = true := by
  simp [recordConstantsOk]

@[simp] theorem recordConstantsOk_mkPageView (pvId sid : Nat) (ts url : String) :
    recordConstantsOk (Record.pageView (mkPageView pvId sid ts url)) = true := by
  simp [recordConstantsOk]

@[simp] theorem recordConstantsOk_rawSql (s : String) :
    recordConstantsOk (Record.rawSql s) = true := rfl

theorem all_constantsOk_uniformOneLoop (ts : String) (dims : Dimensions) :
    ∀ n pvId sid,
      ((uniformOneLoop ts dims n pvId sid).1).all recordConstantsOk = true
  | 0, _, _ => rfl
  | n + 1, pvId, sid => by
    simp [uniformOneLoop,
      all_constantsOk_uniformOneLoop ts dims n (pvId + 1) (sid + 1)]

theorem all_constantsOk_evenSplitInner (ts url : String) (sid : Nat) :
    ∀ k pvId,
      ((evenSplitInner ts url sid k pvId).1).all recordConstantsOk = true
  | 0, _ => rfl
  | k + 1, pvId => by
    simp [evenSplitInner, all_constantsOk_evenSplitInner ts url sid k (pvId + 1)]

theorem all_constantsOk_evenSplitLoop (ts : String) (dims : Dimensions)
    (k : Nat) :
    ∀ n pvId sid,
      ((evenSplitLoop ts dims k n pvId sid).1).all recordConstantsOk = true
  | 0, _, _ => rfl
  | n + 1, pvId, sid => by
    simp [evenSplitLoop, all_constantsOk_evenSplitInner,
      all_constantsOk_evenSplitLoop ts dims k n
        (evenSplitInner ts dims.urlPath sid k pvId).2 (sid + 1)]

theorem all_constantsOk_remainderLoop (ts url : String) (lastSid : Nat) :
    ∀ n pvId,
      ((remainderLoop ts url lastSid n pvId).1).all recordConstantsOk = true
  | 0, _ => rfl
  | n + 1, pvId => by
    simp [remainderLoop,
      all_constantsOk_remainderLoop ts url lastSid n (pvId + 1)]

theorem all_constantsOk_transformDay (day : String) (dayRows : List Row)
    (pvId sid : Nat) (x : List Record × Nat × Nat)
    (h : transformDay day dayRows pvId sid = some x) :
    (x.1).all recordConstantsOk = true := by
  match dayRows with
  | [] => simp [transformDay] at h
  | row :: rest =>
    by_cases h1 : row.pageViews / max row.sessions 1 = 1
    · rw [transformDay_cons_uniform day row rest pvId sid h1] at h
      rw [← Option.some.inj h]
      exact all_constantsOk_uniformOneLoop _ _ _ _ _
    · by_cases h2 : row.pageViews % max row.sessions 1 = 0
      · rw [transformDay_cons_even day row rest pvId sid h1 h2] at h
        rw [← Option.some.inj h]
        exact all_constantsOk_evenSplitLoop _ _ _ _ _ _
      · rw [transformDay_cons_rem day row rest pvId sid h1 h2] at h
        rw [← Option.some.inj h]
        simp [all_constantsOk_uniformOneLoop, all_constantsOk_remainderLoop]

theorem all_constantsOk_transformDays (rows : List (String × List Row)) :
    ∀ pvId sid x, transformDays rows pvId sid = some x →
      (x.1).all recordConstantsOk = true := by
  induction rows with
  | nil =>
    intro pvId sid x h
    rw [← Option.some.inj h]
    rfl
  | cons hd tl ih =>
    intro pvId sid x h
    obtain ⟨day, dayRows⟩ := hd
    cases hdm : transformDay day dayRows pvId sid with
    | none => simp [transformDays, hdm] at h
    | some y =>
      obtain ⟨recs, pvId2, sid2⟩ := y
      cases ht : transformDays tl pvId2 sid2 with
      | none => simp [transformDays, hdm, ht] at h
      | some z =>
        obtain ⟨recs2, pvId3, sid3⟩ := z
        simp only [transformDays, hdm, ht] at h
        rw [← Option.some.inj h]
        have h1 := all_constantsOk_transformDay day dayRows pvId sid _ hdm
        have h2 := ih pvId2 sid2 (recs2, pvId3, sid3) ht
        simp only at h1 h2
        simp [h1, h2]

/-- Closed form of the even-split inner loop: `k` page views for session `sid`
with consecutive view ids from `pvId`. -/
theorem evenSplitInner_fst (ts url : String) (sid : Nat) :
    ∀ k pvId, (evenSplitInner ts url sid k pvId).1 =
      (List.range k).map
        (fun j => Record.pageView (mkPageView (pvId + j) sid ts url))
  | 0, pvId => by simp [evenSplitInner]
  | k + 1, pvId => by
    simp only [evenSplitInner, evenSplitInner_fst ts url sid k (pvId + 1)]
    rw [List.range_succ_eq_map, List.map_cons, List.map_map]
    simp only [Nat.add_zero]
    congr 1
    apply List.map_congr_left
    intro j _
    simp only [Function.comp_apply]
    congr 2
    omega

/-- The uniform-one loop produces exactly the spec's uniform-one shape. -/
theorem uniformOneLoop_fst (ts : String) (dims : Dimensions) :
    ∀ n pvId sid,
      (uniformOneLoop ts dims n pvId sid).1 =
        specUniformOneShape ts dims n pvId sid
  | 0, pvId, sid => by simp [uniformOneLoop, specUniformOneShape]
  | n + 1, pvId, sid => by
    simp only [uniformOneLoop,
      uniformOneLoop_fst ts dims n (pvId + 1) (sid + 1), specUniformOneShape]
    rw [List.range_succ_eq_map, List.map_cons, List.map_map,
      List.flatten_cons]
    simp only [Nat.add_zero, List.cons_append, List.nil_append]
    congr 1
    congr 1
    refine congrArg List.flatten (List.map_congr_left ?_)
    intro i _
    simp only [Function.comp_apply]
    congr 2
    · congr 1
      omega
    · congr 2
      omega
      omega

/-- The even-split outer loop produces exactly the spec's even-split shape. -/
theorem evenSplitLoop_fst (ts : String) (dims : Dimensions) (k : Nat) :
    ∀ n pvId sid,
      (evenSplitLoop ts dims k n pvId sid).1 =
        specEvenSplitShape ts dims k n pvId sid
  | 0, pvId, sid => by simp [evenSplitLoop, specEvenSplitShape]
  | n + 1, pvId, sid => by
    simp only [evenSplitLoop, evenSplitInner_snd,
      evenSplitLoop_fst ts dims k n (pvId + k) (sid + 1), specEvenSplitShape,
      evenSplitInner_fst]
    rw [List.range_succ_eq_map, List.map_cons, List.map_map,
      List.flatten_cons]
    simp only [Nat.add_zero, Nat.zero_mul, List.cons_append]
    congr 1
    congr 1
    refine congrArg List.flatten (List.map_congr_left ?_)
    intro i _
    simp only [Function.comp_apply]
    congr 1
    · congr 2
      omega
    · apply List.map_congr_left
      intro j _
      congr 2
      · rw [Nat.succ_mul]
        omega
      · omega

/-- Claim C1: the spec asserts that the three policies together always emit
exactly `v = row.pageViews` page views per processed row.  The code violates
this: for the documented example `pageViews = 5, sessions = 3` (the source's
own comment at line 297 expects 5 views split 1/1/3) the branch
`page_views // sessions == 1` at line 309 captures the row (5 / 3 = 1) and
only 3 page views are emitted. -/
theorem claim_C1 :
    (transformDay "2022-01-01"
        [{ dimensions := sampleDims, pageViews := 5, sessions := 3 }] 1 1).map
      (fun x => countPageViews x.1) = some 3 ∧ (3 : Nat) ≠ 5 :=
  ⟨rfl, by decide⟩

/-- Claim C2: the spec asserts that `v = 5, s = 3` is handled by the
remainder-to-last policy (sessions receive 1, 1 and 3 page views).  The code
violates this: `5 // 3 == 1` sends the row into the uniform-one branch
(line 309), so each of the three sessions receives exactly one page view. -/
theorem claim_C2 :
    (transformDay "2022-01-01"
        [{ dimensions := sampleDims, pageViews := 5, sessions := 3 }] 1 1).map
      (fun x => (countSessions x.1, viewsForSession 1 x.1,
                 viewsForSession 2 x.1, viewsForSession 3 x.1)) =
      some (3, 1, 1, 1) ∧
    ¬ ((3, 1, 1, 1) = ((3 : Nat), (1 : Nat), (1 : Nat), (3 : Nat))) :=
  ⟨rfl, by decide⟩

/-- Claim C3: across an entire run, the `sessionId` values of emitted `Session`
records and the `viewId` values of emitted `PageView` records each form the
sequence `1, 2, 3, ...` in emission order — both counters start at 1, advance
by exactly one per emitted record of their kind, and are never reset between
days or rows. -/
theorem claim_C3 (rows : List (String × List Row)) :
    sessionIds ((migrate_transform rows).getD []) =
      List.range' 1 (countSessions ((migrate_transform rows).getD [])) ∧
    viewIds ((migrate_transform rows).getD []) =
      List.range' 1 (countPageViews ((migrate_transform rows).getD [])) := by
  cases h : migrate_transform rows with
  | none => simp [h, sessionIds, viewIds, countSessions, countPageViews]
  | some out =>
    simp only [h, Option.getD_some]
    unfold migrate_transform at h
    cases ht : transformDays rows 1 1 with
    | none => rw [ht] at h; exact absurd h (by simp)
    | some y =>
      obtain ⟨recs, pvN, sidN⟩ := y
      rw [ht] at h
      simp only at h
      obtain ⟨a, b, e1, e2, e3, e4⟩ := transformDays_ids rows 1 1 _ ht
      simp only at e1 e2 e3 e4
      rw [← Option.some.inj h]
      constructor
      · simp [countSessions, e1]
      · simp [countPageViews, e3]

/-- Claim C4: in the ordered output of the synthesizer, every `PageView`
references the `sessionId` of a `Session` emitted at an earlier position —
there is never a forward reference. -/
theorem claim_C4 (rows : List (String × List Row)) :
    noForwardRef ((migrate_transform rows).getD []) = true := by
  cases h : migrate_transform rows with
  | none => simp [h, noForwardRef, noForwardRefAux]
  | some out =>
    simp only [h, Option.getD_some]
    unfold migrate_transform at h
    cases ht : transformDays rows 1 1 with
    | none => rw [ht] at h; exact absurd h (by simp)
    | some y =>
      obtain ⟨recs, pvN, sidN⟩ := y
      rw [ht] at h
      simp only at h
      rw [noForwardRef, ← Option.some.inj h, noForwardRefAux_append]
      have h1 := noForwardRefAux_transformDays rows 1 1 _ [] ht
      simp only at h1
      simp [h1, noForwardRefAux]

/-- Claim C5: the spec asserts that two separate sequence-reset entries are
appended after all days are processed.  The code appends exactly ONE entry:
the two `setval` f-strings at lines 346-347 have no comma between them, so
Python concatenates them into a single string and `extend` adds a single list
element.  The reported values (one past the last used view id and session id)
are the ones the claim states. -/
theorem claim_C5 :
    ((migrate_transform [("2022-01-01",
        [{ dimensions := sampleDims, pageViews := 2, sessions := 2 }])]).getD
      []).filter isReset = [Record.rawSql (resetEntry 3 3)] ∧
    (((migrate_transform [("2022-01-01",
        [{ dimensions := sampleDims, pageViews := 2, sessions := 2 }])]).getD
      []).filter isReset).length = 1 ∧
    (1 : Nat) ≠ 2 :=
  ⟨rfl, rfl, by decide⟩

/-- Claim C6: the number of `Session` records emitted for the row the
transform processes equals `max(row.sessions, 1)` — in particular a
`sessions` metric of 0 is coerced to one session rather than failing. -/
theorem claim_C6 (day : String) (row : Row) (rest : List Row) (pvId sid : Nat) :
    (transformDay day (row :: rest) pvId sid).map
      (fun x => countSessions x.1) = some (max row.sessions 1) := by
  by_cases h1 : row.pageViews / max row.sessions 1 = 1
  · rw [transformDay_cons_uniform day row rest pvId sid h1]
    simp [countSessions, sessionIds_uniformOneLoop]
  · by_cases h2 : row.pageViews % max row.sessions 1 = 0
    · rw [transformDay_cons_even day row rest pvId sid h1 h2]
      simp [countSessions, sessionIds_evenSplitLoop]
    · rw [transformDay_cons_rem day row rest pvId sid h1 h2]
      simp [countSessions, sessionIds_uniformOneLoop]

/-- Claim C7: for `startDate <= endDate` the aggregator produces one
single-day range per calendar day of the inclusive interval, in ascending
order, and issues one fetch per such day keyed by the day. -/
theorem claim_C7 (s e : Int) (hle : s ≤ e) (fetch : DateRange → List Row) :
    (migrate_date_ranges s e).length = (e - s + 1).toNat ∧
    (∀ i (h : i < (migrate_date_ranges s e).length),
        (migrate_date_ranges s e)[i] =
          { startDate := s + i, endDate := s + i }) ∧
    (∀ d : Int, ({ startDate := d, endDate := d } : DateRange) ∈
        migrate_date_ranges s e ↔ s ≤ d ∧ d ≤ e) ∧
    List.Pairwise (fun a b => a.startDate < b.startDate)
      (migrate_date_ranges s e) ∧
    migrate_extract fetch (migrate_date_ranges s e) =
      (migrate_date_ranges s e).map (fun r => (r.startDate, fetch r)) := by
  refine ⟨by rw [migrate_date_ranges, List.length_map, List.length_range],
    ?_, ?_, ?_, rfl⟩
  · intro i h
    simp only [migrate_date_ranges, List.getElem_map, List.getElem_range]
  · intro d
    simp only [migrate_date_ranges, List.mem_map, List.mem_range]
    constructor
    · rintro ⟨i, hi, hEq⟩
      obtain ⟨h1, h2⟩ := (DateRange.mk.injEq _ _ _ _).mp hEq
      omega
    · intro hd
      refine ⟨(d - s).toNat, by omega, ?_⟩
      rw [DateRange.mk.injEq]
      omega
  · rw [migrate_date_ranges, List.pairwise_map]
    have h := List.pairwise_lt_range ((e - s + 1).toNat)
    exact h.imp (fun hab => by simpa using hab)

/-- Witness for claim C7 at `startDate = 0`, `endDate = 2` and the trivial
fetch function. -/
theorem claim_C7_witness :
    (migrate_date_ranges 0 2).length = ((2 : Int) - 0 + 1).toNat ∧
    (∀ i (h : i < (migrate_date_ranges 0 2).length),
        (migrate_date_ranges 0 2)[i] =
          { startDate := 0 + (i : Int), endDate := 0 + (i : Int) }) ∧
    (∀ d : Int, ({ startDate := d, endDate := d } : DateRange) ∈
        migrate_date_ranges 0 2 ↔ 0 ≤ d ∧ d ≤ 2) ∧
    List.Pairwise (fun a b => a.startDate < b.startDate)
      (migrate_date_ranges 0 2) ∧
    migrate_extract (fun _ => ([] : List Row)) (migrate_date_ranges 0 2) =
      (migrate_date_ranges 0 2).map
        (fun r => (r.startDate, ([] : List Row))) :=
  claim_C7 0 2 (by decide) (fun _ => [])

/-- Claim C8: the policy selection evaluates `v // s == 1` before
`v % s == 0`, so a row with `v == s` is handled by the uniform-one policy
(each of the `s` sessions immediately followed by its single page view); and
whenever the even-split rule fires (and uniform-one does not), the row yields
`s` sessions, each immediately followed by its contiguous group of exactly
`v / s` page views. -/
theorem claim_C8 (day : String) (dims : Dimensions) (rest : List Row)
    (pv sv pvId sid : Nat) :
    (pv = max sv 1 →
      transformDay day
          ({ dimensions := dims, pageViews := pv, sessions := sv } :: rest)
          pvId sid =
        some (specUniformOneShape (dayTimestamp day) dims (max sv 1) pvId sid,
              pvId + max sv 1, sid + max sv 1)) ∧
    (pv % max sv 1 = 0 → ¬ pv / max sv 1 = 1 →
      transformDay day
          ({ dimensions := dims, pageViews := pv, sessions := sv } :: rest)
          pvId sid =
        some (specEvenSplitShape (dayTimestamp day) dims (pv / max sv 1)
                (max sv 1) pvId sid,
              pvId + (max sv 1) * (pv / max sv 1), sid + max sv 1)) := by
  constructor
  · intro hpv
    have h1 : pv / max sv 1 = 1 := by
      rw [hpv]
      exact Nat.div_self (by omega)
    rw [transformDay_cons_uniform day _ rest pvId sid (by simpa using h1)]
    have hfst := uniformOneLoop_fst (dayTimestamp day) dims (max sv 1) pvId sid
    have hsnd := uniformOneLoop_snd (dayTimestamp day) dims (max sv 1) pvId sid
    rw [← hfst, ← hsnd]
  · intro h2 h1
    rw [transformDay_cons_even day _ rest pvId sid (by simpa using h1)
      (by simpa using h2)]
    have hfst := evenSplitLoop_fst (dayTimestamp day) dims (pv / max sv 1)
      (max sv 1) pvId sid
    have hsnd := evenSplitLoop_snd (dayTimestamp day) dims (pv / max sv 1)
      (max sv 1) pvId sid
    rw [← hfst, ← hsnd]

/-- Witness for claim C8 at `v = 5, s = 5` (uniform-one on a tie) and at
`v = 4, s = 2` (even split, two views per session). -/
theorem claim_C8_witness :
    transformDay "2022-01-01"
        [{ dimensions := sampleDims, pageViews := 5, sessions := 5 }] 1 1 =
      some (specUniformOneShape (dayTimestamp "2022-01-01") sampleDims 5 1 1,
            6, 6) ∧
    transformDay "2022-01-01"
        [{ dimensions := sampleDims, pageViews := 4, sessions := 2 }] 1 1 =
      some (specEvenSplitShape (dayTimestamp "2022-01-01") sampleDims 2 2 1 1,
            5, 3) :=
  ⟨(claim_C8 "2022-01-01" sampleDims [] 5 5 1 1).1 (by decide),
   (claim_C8 "2022-01-01" sampleDims [] 4 2 1 1).2 (by decide) (by decide)⟩

/-- Claim C9: the spec asserts that within a day every dimension row of the
day's list is processed in order.  The code violates this: the metric pair is
read only from `row[0]` (line 307) and the loop never iterates over the day's
rows, so a second row contributes nothing — a day whose first row has
`sessions = 1` produces 1 session even if a second row carries `sessions = 7`
(the claim would require `1 + 7 = 8` sessions for the day). -/
theorem claim_C9 :
    transformDay "2022-01-01"
        [{ dimensions := sampleDims, pageViews := 1, sessions := 1 },
         { dimensions := sampleDims, pageViews := 100, sessions := 7 }] 1 1 =
      transformDay "2022-01-01"
        [{ dimensions := sampleDims, pageViews := 1, sessions := 1 }] 1 1 ∧
    (transformDay "2022-01-01"
        [{ dimensions := sampleDims, pageViews := 1, sessions := 1 },
         { dimensions := sampleDims, pageViews := 100, sessions := 7 }] 1 1).map
      (fun x => (countSessions x.1, countPageViews x.1)) = some (1, 1) ∧
    ¬ ((1 : Nat) = 8) :=
  ⟨rfl, rfl, by decide⟩

/-- Claim C10: every `Session` and `PageView` the synthesizer emits carries
the hardcoded `website_id = 1`, and every `Session` carries the hardcoded
`hostname = "localhost"`, for every possible input. -/
theorem claim_C10 (rows : List (String × List Row)) :
    ((migrate_transform rows).getD []).all recordConstantsOk = true ∧
    website_id = 1 ∧ hostname = "localhost" := by
  refine ⟨?_, rfl, rfl⟩
  cases h : migrate_transform rows with
  | none => simp [h]
  | some out =>
    simp only [h, Option.getD_some]
    unfold migrate_transform at h
    cases ht : transformDays rows 1 1 with
    | none => rw [ht] at h; exact absurd h (by simp)
    | some y =>
      obtain ⟨recs, pvN, sidN⟩ := y
      rw [ht] at h
      simp only at h
      rw [← Option.some.inj h]
      have h1 := all_constantsOk_transformDays rows 1 1 _ ht
      simp only at h1
      simp [h1]

